import Mathlib

/-!
Verification development for the DollWorkflowAI task execution engine.

Shallow embedding of the engine's data model and operations:
* `src/server/types.ts` — `ImageItem`, `AppSettings`, `TaskItem`, `GenerateRequest`;
  the TypeScript `WorkflowStage` string enum is represented by plain strings,
  matching runtime semantics (the HTTP layer passes unvalidated JSON bodies to
  `engine.submitTask`, so any string may arrive as the stage).
* `src/unnamed/part_000` (`WorkflowEngine`) — `validateRequest`, `submitTask`,
  `processQueue`, `updateConcurrency`, `uploadImagesToOSS`, `callGeekAI`,
  `pollGeekAIResult`, `downloadImage`, `executeTask`.
* `src/server/db.ts` — `DB.recoverState`.

Impure inputs (clocks, generated ids, process diagnostics, network responses)
are passed as explicit parameters or oracle functions.  Network-side error
message bodies are abstracted (oracles report shapes/outcomes, not free text),
and the JSON payload dump log line is represented by a dedicated marker event.
Side effects of the pipeline are modelled as an explicit event trace.
-/

namespace DollWorkflow

/-- `ImageItem` from src/server/types.ts. -/
structure ImageItem where
  id : String
  url : String
  local_path : String
  name : String
  category : Option String := none
  selected : Bool := false
deriving Repr, DecidableEq

/-- `AppSettings` from src/server/types.ts. -/
structure AppSettings where
  geekaiApiKey : String
  concurrency : Nat
  workingDirectory : String
  ossAccessKeyId : String
  ossAccessKeySecret : String
  ossEndpoint : String
  ossBucketName : String
  ossFolder : String
  promptHairstyle : String
  promptAssembly : String
  promptReplacement : String
deriving Repr, DecidableEq

/-- The status union of `TaskItem` in src/server/types.ts. -/
inductive TaskStatus where
  | pending
  | processing
  | completed
  | failed
deriving Repr, DecidableEq

/-- `TaskItem` from src/server/types.ts.  Optional fields are `Option`s. -/
structure TaskItem where
  id : String
  type : String
  status : TaskStatus
  model : String
  inputImages : List ImageItem
  outputImages : List ImageItem
  startTime : String
  endTime : Option String := none
  duration : Option String := none
  geekai_task_id : Option String := none
  error_message : Option String := none
  logs : List String := []
deriving Repr, DecidableEq

/-- Runtime value of `WorkflowStage.HAIRSTYLE_EXTRACTION`. -/
def HAIRSTYLE_EXTRACTION : String := "hairstyle_extraction"

/-- Runtime value of `WorkflowStage.DOLL_ASSEMBLY`. -/
def DOLL_ASSEMBLY : String := "doll_assembly"

/-- Runtime value of `WorkflowStage.DOLL_REPLACEMENT`. -/
def DOLL_REPLACEMENT : String := "doll_replacement"

/-- `GenerateRequest` from src/server/types.ts (stage as its runtime string). -/
structure GenerateRequest where
  stage : String
  model : String
  size : String
  aspect_ratio : String
  input_images : List ImageItem
  settings : AppSettings
deriving Repr, DecidableEq

/-- `WorkflowEngine.validateRequest` (src/unnamed/part_000, lines 38–76).
JavaScript truthiness on the guarded string fields means exactly the empty
string is rejected.  On success the request is returned with `input_images`
normalized in place, exactly as the source mutates `req.input_images`. -/
def catFilter (imgs : List ImageItem) (cat : String) : List ImageItem :=
  imgs.filter (fun i => i.category = some cat)

def validateRequest (req : GenerateRequest) : Option String × GenerateRequest :=
  if req.settings.geekaiApiKey = "" then
    (some "GeekAI API Key is missing. Please check Settings.", req)
  else if req.model = "" then (some "Please select an AI Model.", req)
  else if req.size = "" then (some "Please select a Size.", req)
  else if req.aspect_ratio = "" then (some "Please select an Aspect Ratio.", req)
  else if req.stage = HAIRSTYLE_EXTRACTION then
    if (catFilter req.input_images "hair-ref").length ≠ 1 ∨
        (catFilter req.input_images "hair-mannequin").length ≠ 1 then
      (some "Rules: Select exactly 1 Reference image and 1 Mannequin image.",
        req)
    else
      (none, { req with input_images :=
        (catFilter req.input_images "hair-ref"
          ++ catFilter req.input_images "hair-mannequin") })
  else if req.stage = DOLL_ASSEMBLY then
    if (catFilter req.input_images "asm-hair").length ≠ 1 ∨
        (catFilter req.input_images "asm-body").length ≠ 1 ∨
        (catFilter req.input_images "asm-cloth").length ≠ 1 then
      (some "Rules: Select exactly 1 Hair, 1 Body, and 1 Cloth image.", req)
    else
      (none, { req with input_images :=
        (catFilter req.input_images "asm-hair"
          ++ catFilter req.input_images "asm-body"
          ++ catFilter req.input_images "asm-cloth") })
  else if req.stage = DOLL_REPLACEMENT then
    if (catFilter req.input_images "rep-ref").length ≠ 1 ∨
        (catFilter req.input_images "rep-prod").length ≠ 1 then
      (some "Rules: Select exactly 1 Reference image and 1 Product image.",
        req)
    else
      (none, { req with input_images :=
        (catFilter req.input_images "rep-ref"
          ++ catFilter req.input_images "rep-prod") })
  else (none, req)

/-- `req.stage.replace(/_/g, ' ').toUpperCase()` from `submitTask`, written
as a single per-character pass (replace and upper-case both act
character-wise, and upper-casing fixes both `_` and the space). -/
def typeOfStage (stage : String) : String :=
  String.mk (stage.data.map fun c => (if c = '_' then ' ' else c).toUpper)

/-- The `TaskItem` literal built inside `WorkflowEngine.submitTask`
(src/unnamed/part_000, lines 85–94); `taskId` and `startTime` stand for the
impure `Date.now`/`uuid`/`toLocaleString` values. -/
def mkTask (taskId startTime : String) (req : GenerateRequest) : TaskItem :=
  { id := taskId
    type := typeOfStage req.stage
    status := TaskStatus.pending
    model := req.model
    inputImages := req.input_images
    outputImages := []
    logs := []
    startTime := startTime }

/-- Mutable state of a `WorkflowEngine` instance together with the persisted
task collection (`tasks.json`, most-recent-first).  `running` lists the ids of
tasks whose `executeTask` has been started and has not yet settled; its length
is the engine's `activeCount`. -/
structure EngineState where
  queue : List (String × GenerateRequest)
  running : List String
  maxConcurrency : Nat
  tasks : List TaskItem
deriving Repr, DecidableEq

/-- `WorkflowEngine.processQueue` (src/unnamed/part_000, lines 108–123).
A single invocation dequeues and starts at most one task: the source has no
loop, it shifts one request, increments `activeCount` and returns. -/
def processQueue (s : EngineState) : EngineState :=
  match s.queue with
  | [] => s
  | (tid, _req) :: rest =>
    if s.running.length ≥ s.maxConcurrency then s
    else { s with queue := rest, running := s.running ++ [tid] }

/-- `WorkflowEngine.submitTask` (src/unnamed/part_000, lines 79–105).
On a validation error the source throws before touching the store or the
queue, modelled as `(Except.error e, s)` with the state unchanged.  Otherwise
the new task is unshifted into the store (`DB.addTask`), the request is
enqueued, and `processQueue` runs once. -/
def submitTask (taskId startTime : String) (req : GenerateRequest)
    (s : EngineState) : Except String TaskItem × EngineState :=
  match validateRequest req with
  | (some e, _) => (Except.error e, s)
  | (none, req') =>
    let newTask := mkTask taskId startTime req'
    (Except.ok newTask,
      processQueue { s with
        tasks := newTask :: s.tasks
        queue := s.queue ++ [(taskId, req')] })

/-- The `.finally` continuation of `processQueue`'s call to `executeTask`:
decrement `activeCount` (the task leaves `running`) and re-run admission. -/
def completeTask (tid : String) (s : EngineState) : EngineState :=
  processQueue { s with running := s.running.erase tid }

/-- `WorkflowEngine.updateConcurrency` (src/unnamed/part_000, lines 32–35):
set the limit and re-run admission once. -/
def updateConcurrency (limit : Nat) (s : EngineState) : EngineState :=
  processQueue { s with maxConcurrency := limit }

/-- The admission-relevant events on an engine: a submission, the settling of
a running pipeline (success or failure alike), and a runtime limit change. -/
inductive Event where
  | submit (taskId startTime : String) (req : GenerateRequest)
  | complete (tid : String)
  | setLimit (n : Nat)
deriving Repr, DecidableEq

/-- One engine step per event. -/
def stepEvent (s : EngineState) (e : Event) : EngineState :=
  match e with
  | Event.submit tid st req => (submitTask tid st req s).2
  | Event.complete tid => completeTask tid s
  | Event.setLimit n => updateConcurrency n s

/-- The restart reason written by `DB.recoverState` (src/server/db.ts). -/
def restartMsg : String :=
  "System restarted during execution (Check logs for details)"

/-- The per-task transform inside `DB.recoverState` (src/server/db.ts,
lines 50–80): a non-terminal task is marked failed with an end time and the
restart reason; everything else is returned unchanged. -/
def recoverTask (now : String) (t : TaskItem) : TaskItem :=
  if t.status = TaskStatus.processing ∨ t.status = TaskStatus.pending then
    { t with
      status := TaskStatus.failed
      endTime := some now
      error_message := some restartMsg }
  else t

/-- `DB.recoverState`'s effect on the stored task list: `tasks.map(...)`. -/
def recoverState (now : String) (tasks : List TaskItem) : List TaskItem :=
  tasks.map (recoverTask now)

/-! ## Pipeline side-effect trace

Each observable action of `executeTask` and its helper clients is one event.
Log lines keep their source text, except that remote error message bodies are
abstracted away (the oracles report only outcome shapes) and the JSON payload
dump is the marker `logPayload`. -/

/-- One observable side effect of the execution pipeline. -/
inductive Ev where
  | dbSetProcessing
  | log (msg : String)
  | logPayload
  | ossPut (key : String) (attempt : Nat)
  | apiPost (attempt : Nat)
  | pollQuery (n : Nat)
  | download (attempt : Nat)
  | delay (ms : Nat)
  | dbUpdateRemoteId (uuid : String)
  | dbComplete (endTime duration localPath : String)
  | dbFail (endTime msg : String)
deriving Repr, DecidableEq

/-- `path.basename`: the part after the last slash. -/
def basename (p : String) : String :=
  ((p.splitOn "/").reverse).headD p

/-- `settings.ossFolder.replace(/\/$/, '')`: drop one trailing slash. -/
def stripTrailingSlash (s : String) : String :=
  if s.endsWith "/" then s.dropRight 1 else s

/-- `settings.ossEndpoint.replace(/^https?:\/\//, '')`. -/
def stripScheme (s : String) : String :=
  if s.startsWith "https://" then s.drop 8
  else if s.startsWith "http://" then s.drop 7
  else s

/-- The deterministic object key used by `uploadImagesToOSS`. -/
def ossKey (s : AppSettings) (img : ImageItem) : String :=
  stripTrailingSlash s.ossFolder ++ "/" ++ basename img.local_path

/-- The public link pushed by `uploadImagesToOSS` after a successful put. -/
def ossLink (s : AppSettings) (img : ImageItem) : String :=
  "https://" ++ s.ossBucketName ++ "." ++ stripScheme s.ossEndpoint ++ "/"
    ++ ossKey s img

/-- The inner retry loop of `uploadImagesToOSS` for one image
(src/unnamed/part_000, lines 276–294), unrolled over its fixed three
iterations.  `ok i` tells whether the network put on attempt `i` succeeds.
Attempt log lines precede the put; a failure log follows it; a fixed 3000 ms
delay separates attempts; the third failure raises an error naming the file. -/
def uploadAttEvs (s : AppSettings) (img : ImageItem) (i : Nat) : List Ev :=
  [Ev.log ("Uploading " ++ img.name ++ " (Attempt " ++ toString (i + 1)
      ++ "/3)..."),
    Ev.ossPut (ossKey s img) i]

def uploadFailLog (i : Nat) : Ev :=
  Ev.log ("Upload attempt " ++ toString (i + 1) ++ " failed")

def uploadOne (s : AppSettings) (img : ImageItem) (ok : Nat → Bool) :
    Except String String × List Ev :=
  if ok 0 then (Except.ok (ossLink s img), uploadAttEvs s img 0)
  else if ok 1 then
    (Except.ok (ossLink s img),
      uploadAttEvs s img 0 ++ [uploadFailLog 0, Ev.delay 3000]
        ++ uploadAttEvs s img 1)
  else if ok 2 then
    (Except.ok (ossLink s img),
      uploadAttEvs s img 0 ++ [uploadFailLog 0, Ev.delay 3000]
        ++ uploadAttEvs s img 1 ++ [uploadFailLog 1, Ev.delay 3000]
        ++ uploadAttEvs s img 2)
  else
    (Except.error ("OSS Upload Failed for " ++ img.name),
      uploadAttEvs s img 0 ++ [uploadFailLog 0, Ev.delay 3000]
        ++ uploadAttEvs s img 1 ++ [uploadFailLog 1, Ev.delay 3000]
        ++ uploadAttEvs s img 2 ++ [uploadFailLog 2])

/-- The per-image fold of `uploadImagesToOSS`: images are processed in order,
each successful link is appended, the first exhausted image aborts the whole
upload.  `ok i j` is the outcome of attempt `j` for the image at index `i`. -/
def uploadGo (s : AppSettings) (ok : Nat → Nat → Bool) :
    List ImageItem → Nat → Except String (List String) × List Ev
  | [], _ => (Except.ok [], [])
  | img :: rest, idx =>
    match uploadOne s img (ok idx) with
    | (Except.error e, evs) => (Except.error e, evs)
    | (Except.ok link, evs) =>
      match uploadGo s ok rest (idx + 1) with
      | (Except.error e, evs') => (Except.error e, evs ++ evs')
      | (Except.ok links, evs') => (Except.ok (link :: links), evs ++ evs')

/-- `WorkflowEngine.uploadImagesToOSS` (src/unnamed/part_000, lines 258–296).
The source guards exactly `ossAccessKeyId` and `ossBucketName` (JavaScript
truthiness: the empty string is missing) and throws before the OSS client is
built, so no network event is emitted. -/
def uploadImagesToOSS (images : List ImageItem) (s : AppSettings)
    (ok : Nat → Nat → Bool) : Except String (List String) × List Ev :=
  if s.ossAccessKeyId = "" ∨ s.ossBucketName = "" then
    (Except.error "OSS Configuration incomplete", [])
  else uploadGo s ok images 0

/-- Outcome of one `axios.post` in `callGeekAI`: `none` is a transport error,
`some (status, task_id)` a delivered response, with a missing or empty
`task_id` represented as `""` (both falsy in the source's check). -/
def submitAttempt (r : Option (Nat × String)) : Option String :=
  match r with
  | some (status, tid) => if status = 200 ∧ tid ≠ "" then some tid else none
  | none => none

/-- The events of one submission attempt: the post itself, and the status log
written whenever a response was delivered (before the `task_id` check). -/
def submitAttemptEvs (i : Nat) (r : Option (Nat × String)) : List Ev :=
  Ev.apiPost i ::
    (match r with
     | some (status, _) => [Ev.log ("API Response Status: " ++ toString status)]
     | none => [])

/-- The per-attempt failure log of `callGeekAI`. -/
def submitFailLog (i : Nat) : Ev :=
  Ev.log ("GeekAI API Call Attempt " ++ toString (i + 1) ++ " Failed")

/-- `WorkflowEngine.callGeekAI` (src/unnamed/part_000, lines 298–326),
unrolled over its fixed three iterations.  A delivered response without a
remote task id is thrown and caught inside the loop, so it counts as a failed
attempt exactly like a transport error; failed attempts are separated by a
fixed 10000 ms delay; the third failure raises `GeekAI Request Failed`. -/
def callGeekAI (oracle : Nat → Option (Nat × String)) :
    Except String String × List Ev :=
  match submitAttempt (oracle 0) with
  | some tid => (Except.ok tid, submitAttemptEvs 0 (oracle 0))
  | none =>
    let e0 := submitAttemptEvs 0 (oracle 0) ++ [submitFailLog 0, Ev.delay 10000]
    match submitAttempt (oracle 1) with
    | some tid => (Except.ok tid, e0 ++ submitAttemptEvs 1 (oracle 1))
    | none =>
      let e1 := e0 ++ submitAttemptEvs 1 (oracle 1)
        ++ [submitFailLog 1, Ev.delay 10000]
      match submitAttempt (oracle 2) with
      | some tid => (Except.ok tid, e1 ++ submitAttemptEvs 2 (oracle 2))
      | none =>
        (Except.error "GeekAI Request Failed",
          e1 ++ submitAttemptEvs 2 (oracle 2) ++ [submitFailLog 2])

/-- Outcome of one `axios.get` in `pollGeekAIResult`: a delivered status
response (`task_status`, first result url, optional `error.message`), an HTTP
error response carrying a status code and optional message body, or a
response-less network error. -/
inductive PollResp where
  | ok (task_status : String) (url : String) (errMsg : Option String)
  | httpErr (status : Nat) (msg : Option String)
  | netErr
deriving Repr, DecidableEq

/-- What one poll iteration decides. -/
inductive PollOutcome where
  | success (url : String)
  | fatal (msg : String)
  | next
deriving Repr, DecidableEq

/-- One iteration of `pollGeekAIResult`'s `while (true)` loop
(src/unnamed/part_000, lines 328–364) at poll count `count`: sleep 3000 ms,
query, then dispatch on the response.  NOTE the faithful translation of the
remote-failure branch: the source throws there, but the throw happens inside
the iteration's own `try`, and the `catch` re-raises only errors whose
attached HTTP response has a 4xx status — a plain thrown `Error` has no
response, so the remote-reported failure falls through to the glitch path and
the loop continues. -/
def pollStatusLog (count : Nat) (st : String) : List Ev :=
  if count % 10 = 0 then [Ev.log ("Polling... Current Status: " ++ st)]
  else []

def pollIter (count : Nat) (r : PollResp) : PollOutcome × List Ev :=
  match r with
  | PollResp.ok st url em =>
    if st = "succeed" then
      (PollOutcome.success url,
        [Ev.delay 3000, Ev.pollQuery count] ++ pollStatusLog count st)
    else if st = "failed" then
      (PollOutcome.next,
        [Ev.delay 3000, Ev.pollQuery count] ++ pollStatusLog count st
          ++ [Ev.log ("Remote Task Failed: "
            ++ em.getD "Task failed remotely")])
    else
      (PollOutcome.next,
        [Ev.delay 3000, Ev.pollQuery count] ++ pollStatusLog count st)
  | PollResp.httpErr status msg =>
    if 400 ≤ status ∧ status < 500 then
      (PollOutcome.fatal (msg.getD "API Error"),
        [Ev.delay 3000, Ev.pollQuery count,
          Ev.log ("Polling Fatal Error: " ++ msg.getD "API Error")])
    else (PollOutcome.next, [Ev.delay 3000, Ev.pollQuery count])
  | PollResp.netErr => (PollOutcome.next, [Ev.delay 3000, Ev.pollQuery count])

/-- The polling loop, iterated up to `fuel` times starting from poll count
`count`; `none` means the loop is still running when the fuel runs out (the
source loop has no exit of its own). -/
def pollLoop (oracle : Nat → PollResp) :
    Nat → Nat → Option (Except String String) × List Ev
  | _, 0 => (none, [])
  | count, fuel + 1 =>
    match pollIter count (oracle count) with
    | (PollOutcome.success url, evs) => (some (Except.ok url), evs)
    | (PollOutcome.fatal m, evs) => (some (Except.error m), evs)
    | (PollOutcome.next, evs) =>
      let r := pollLoop oracle (count + 1) fuel
      (r.1, evs ++ r.2)

/-- `WorkflowEngine.pollGeekAIResult`: `pollCount` starts at 1. -/
def pollGeekAIResult (oracle : Nat → PollResp) (fuel : Nat) :
    Option (Except String String) × List Ev :=
  pollLoop oracle 1 fuel

/-- `WorkflowEngine.downloadImage`'s infinite retry loop, iterated up to
`fuel` attempts; `ok n` is the outcome of attempt `n`, `filePath` stands for
the impure generated target path. -/
def downloadLoop (ok : Nat → Bool) (filePath : String) :
    Nat → Nat → Option String × List Ev
  | _, 0 => (none, [])
  | n, fuel + 1 =>
    if ok n then (some filePath, [Ev.download n])
    else
      let r := downloadLoop ok filePath (n + 1) fuel
      (r.1,
        Ev.download n :: Ev.log "Download failed (retrying)" :: Ev.delay 3000
          :: r.2)

/-- `WorkflowEngine.downloadImage` (src/unnamed/part_000, lines 366–396). -/
def downloadImage (ok : Nat → Bool) (filePath : String) (fuel : Nat) :
    Option String × List Ev :=
  downloadLoop ok filePath 0 fuel

/-- The tail written by `executeTask`'s catch block: the critical-failure log
and the terminal `failed` update. -/
def failTail (endTime e : String) : List Ev :=
  [Ev.log ("CRITICAL FAILURE: " ++ e), Ev.dbFail endTime e]

/-- The `OSS Link [i]: ...` log lines. -/
def linkLogs : Nat → List String → List Ev
  | _, [] => []
  | i, l :: ls =>
    Ev.log ("OSS Link [" ++ toString i ++ "]: " ++ l) :: linkLogs (i + 1) ls

/-- `WorkflowEngine.executeTask` (src/unnamed/part_000, lines 126–204) as an
event trace.  `memLine` stands for the impure PID/memory diagnostic line;
`endTimeStr` and `durationStr` for the impure clock reads at termination;
network behaviour comes from the oracles.  An exhausted poll or download fuel
leaves the trace open (the task is still running), mirroring the source's
unbounded loops. -/
def executeTask (req : GenerateRequest) (memLine : String)
    (ossOk : Nat → Nat → Bool) (subOracle : Nat → Option (Nat × String))
    (pollOracle : Nat → PollResp) (pollFuel : Nat)
    (dlOk : Nat → Bool) (filePath : String) (dlFuel : Nat)
    (endTimeStr durationStr : String) : List Ev :=
  let head :=
    [Ev.dbSetProcessing, Ev.log memLine,
      Ev.log ("Stage: " ++ req.stage ++ ", Model: " ++ req.model ++ ", Size: "
        ++ req.size ++ ", Ratio: " ++ req.aspect_ratio),
      Ev.log ("Starting upload of " ++ toString req.input_images.length
        ++ " images to Aliyun OSS...")]
  match uploadImagesToOSS req.input_images req.settings ossOk with
  | (Except.error e, uevs) => head ++ uevs ++ failTail endTimeStr e
  | (Except.ok links, uevs) =>
    let h2 := head ++ uevs ++ [Ev.log "OSS upload completed successfully."]
      ++ linkLogs 0 links
      ++ [Ev.log "Constructing API payload...",
        Ev.log "--- API REQUEST PAYLOAD ---", Ev.logPayload,
        Ev.log "---------------------------",
        Ev.log "Submitting task to GeekAI API..."]
    match callGeekAI subOracle with
    | (Except.error e, gevs) => h2 ++ gevs ++ failTail endTimeStr e
    | (Except.ok uuid, gevs) =>
      h2 ++ gevs
        ++ [Ev.dbUpdateRemoteId uuid,
          Ev.log ("Task submitted successfully. Remote ID: " ++ uuid),
          Ev.log "Polling for results..."]
        ++ (match pollGeekAIResult pollOracle pollFuel with
          | (none, pevs) => pevs
          | (some (Except.error e), pevs) => pevs ++ failTail endTimeStr e
          | (some (Except.ok url), pevs) =>
            pevs
              ++ [Ev.log ("Image generation succeeded. Result URL: " ++ url),
                Ev.log "Downloading result..."]
              ++ (match downloadImage dlOk filePath dlFuel with
                | (none, devs) => devs
                | (some lp, devs) =>
                  devs
                    ++ [Ev.log ("Image saved to " ++ lp),
                      Ev.dbComplete endTimeStr durationStr lp,
                      Ev.log ("Task completed in " ++ durationStr ++ ".")]))

/-! ## Concrete fixtures -/

/-- A settings record with all engine-relevant credentials present. -/
def sampleSettings : AppSettings :=
  { geekaiApiKey := "key", concurrency := 4, workingDirectory := "./output",
    ossAccessKeyId := "ak", ossAccessKeySecret := "sk",
    ossEndpoint := "https://oss-cn-hangzhou.aliyuncs.com",
    ossBucketName := "bkt", ossFolder := "doll-workflow/",
    promptHairstyle := "p1", promptAssembly := "p2", promptReplacement := "p3" }

/-- A small image fixture with a given category tag. -/
def mkImg (n cat : String) : ImageItem :=
  { id := n, url := "/u/" ++ n, local_path := "/imgs/" ++ n ++ ".jpg",
    name := n, category := some cat, selected := false }

/-- A request whose stage is none of the three known stages. -/
def bogusReq : GenerateRequest :=
  { stage := "stage-x", model := "m", size := "1K", aspect_ratio := "Auto",
    input_images := [mkImg "a" "hair-ref"], settings := sampleSettings }

/-- A fresh engine with the given concurrency limit and empty store. -/
def engineInit (limit : Nat) : EngineState :=
  { queue := [], running := [], maxConcurrency := limit, tasks := [] }

/-! ## Claims -/

/-- C1: the spec says a poll terminates (raising the remote's reported
reason) when the remote reports failure and never continues polling after
that.  The code violates this: the `throw` for a remote-reported failure is
caught by the iteration's own `catch`, which re-raises only errors carrying a
4xx HTTP response, so the loop treats the failure as a transient glitch and
polls forever.  Formally: against an oracle that always reports
`task_status = "failed"`, the loop never terminates, whatever the fuel; and a
single iteration on the failed response decides to continue. -/
theorem pollGeekAIResult_remote_failure_loops :
    (∀ (fuel count : Nat),
      (pollLoop (fun _ => PollResp.ok "failed" "u" (some "boom")) count
          fuel).1 = none) ∧
    (pollIter 1 (PollResp.ok "failed" "u" (some "boom"))).1
      = PollOutcome.next := by
  constructor
  · intro fuel
    induction fuel with
    | zero => intro count; rfl
    | succ n ih =>
      intro count
      simp [pollLoop, pollIter, ih (count + 1)]
  · rfl

/-- C5: after the recovery pass every non-terminal task is failed with an end
time and the restart message, with all other fields unchanged, and every
terminal task is entirely unchanged; the pass maps the stored list
pointwise. -/
theorem recoverState_frame :
    ∀ (now : String) (tasks : List TaskItem) (i : Nat) (t : TaskItem),
      tasks[i]? = some t →
      (recoverState now tasks)[i]? = some (recoverTask now t) ∧
      ((t.status = TaskStatus.pending ∨ t.status = TaskStatus.processing) →
        (recoverTask now t).status = TaskStatus.failed ∧
        (recoverTask now t).endTime = some now ∧
        (recoverTask now t).error_message = some restartMsg ∧
        (recoverTask now t).id = t.id ∧
        (recoverTask now t).type = t.type ∧
        (recoverTask now t).model = t.model ∧
        (recoverTask now t).inputImages = t.inputImages ∧
        (recoverTask now t).outputImages = t.outputImages ∧
        (recoverTask now t).startTime = t.startTime ∧
        (recoverTask now t).duration = t.duration ∧
        (recoverTask now t).geekai_task_id = t.geekai_task_id ∧
        (recoverTask now t).logs = t.logs) ∧
      ((t.status = TaskStatus.completed ∨ t.status = TaskStatus.failed) →
        recoverTask now t = t) := by
  intro now tasks i t ht
  refine ⟨?_, ?_, ?_⟩
  · simp [recoverState, ht]
  · rintro (h | h) <;> simp [recoverTask, h]
  · rintro (h | h) <;> simp [recoverTask, h]

/-- A stored task caught mid-execution, for the recovery witness. -/
def procTask : TaskItem :=
  { id := "t1", type := "X", status := TaskStatus.processing, model := "m",
    inputImages := [], outputImages := [], startTime := "s" }

/-- A concrete instance of `recoverState_frame`: a stored `processing` task
is failed with the restart reason and its model field survives. -/
theorem recoverState_frame_witness :
    (recoverState "now" [procTask])[0]? = some (recoverTask "now" procTask) ∧
    (recoverTask "now" procTask).status = TaskStatus.failed ∧
    (recoverTask "now" procTask).model = "m" := by
  have h := recoverState_frame "now" [procTask] 0 procTask rfl
  exact ⟨h.1, (h.2.1 (Or.inr rfl)).1, (h.2.1 (Or.inr rfl)).2.2.2.2.2.1⟩

/-- The state passed to the final `processQueue` of a successful
`submitTask`: the new task unshifted into the store, the request enqueued. -/
def submittedState (tid st : String) (req : GenerateRequest)
    (s : EngineState) : EngineState :=
  { s with
    tasks := mkTask tid st req :: s.tasks
    queue := s.queue ++ [(tid, req)] }

/-- C9: a request whose stage is none of the three known stages passes
validation untouched (given the four non-empty fields), so it is persisted at
the head of the store and enqueued with its image list unchanged. -/
theorem submitTask_unknown_stage :
    ∀ (tid st : String) (req : GenerateRequest) (s : EngineState),
      req.stage ≠ HAIRSTYLE_EXTRACTION → req.stage ≠ DOLL_ASSEMBLY →
      req.stage ≠ DOLL_REPLACEMENT →
      req.settings.geekaiApiKey ≠ "" → req.model ≠ "" → req.size ≠ "" →
      req.aspect_ratio ≠ "" →
      validateRequest req = (none, req) ∧
      (mkTask tid st req).inputImages = req.input_images ∧
      submitTask tid st req s =
        (Except.ok (mkTask tid st req),
          processQueue (submittedState tid st req s)) := by
  intro tid st req s h1 h2 h3 h4 h5 h6 h7
  have hv : validateRequest req = (none, req) := by
    simp [validateRequest, h1, h2, h3, h4, h5, h6, h7]
  exact ⟨hv, rfl, by simp [submitTask, hv, submittedState]⟩

/-- A concrete instance of `submitTask_unknown_stage`: the bogus-stage
request is accepted and persisted with its arbitrary image list. -/
theorem submitTask_unknown_stage_witness :
    validateRequest bogusReq = (none, bogusReq) ∧
    (mkTask "t1" "now" bogusReq).inputImages = bogusReq.input_images ∧
    submitTask "t1" "now" bogusReq (engineInit 4) =
      (Except.ok (mkTask "t1" "now" bogusReq),
        processQueue (submittedState "t1" "now" bogusReq (engineInit 4))) :=
  submitTask_unknown_stage "t1" "now" bogusReq (engineInit 4)
    (by decide) (by decide) (by decide) (by decide) (by decide) (by decide)
    (by decide)

/-- C3: a submission violating any validation rule — empty credential, model,
size or aspect ratio, or a wrong per-stage image composition — makes
`validateRequest` report an error, and `submitTask` then fails with exactly
that error, leaving the engine state (stored task history and queue)
untouched. -/
theorem submitTask_validation_rejects :
    (∀ req : GenerateRequest,
      (req.settings.geekaiApiKey = "" ∨ req.model = "" ∨ req.size = "" ∨
        req.aspect_ratio = "" ∨
        (req.stage = HAIRSTYLE_EXTRACTION ∧
          ((catFilter req.input_images "hair-ref").length ≠ 1 ∨
            (catFilter req.input_images "hair-mannequin").length ≠ 1)) ∨
        (req.stage = DOLL_ASSEMBLY ∧
          ((catFilter req.input_images "asm-hair").length ≠ 1 ∨
            (catFilter req.input_images "asm-body").length ≠ 1 ∨
            (catFilter req.input_images "asm-cloth").length ≠ 1)) ∨
        (req.stage = DOLL_REPLACEMENT ∧
          ((catFilter req.input_images "rep-ref").length ≠ 1 ∨
            (catFilter req.input_images "rep-prod").length ≠ 1))) →
      ((validateRequest req).1).isSome) ∧
    (∀ (tid st : String) (req : GenerateRequest) (s : EngineState)
        (e : String),
      (validateRequest req).1 = some e →
      submitTask tid st req s = (Except.error e, s)) := by
  constructor
  · intro req h
    unfold validateRequest
    split_ifs <;> simp_all [HAIRSTYLE_EXTRACTION, DOLL_ASSEMBLY,
      DOLL_REPLACEMENT]
  · intro tid st req s e he
    cases hv : validateRequest req with
    | mk o q =>
      rw [hv] at he
      simp only at he
      subst he
      simp [submitTask, hv]

/-- A request failing validation (empty model). -/
def badReq : GenerateRequest := { bogusReq with model := "" }

/-- A concrete instance of `submitTask_validation_rejects`: the empty-model
request is rejected and the engine state is unchanged. -/
theorem submitTask_validation_rejects_witness :
    ((validateRequest badReq).1).isSome ∧
    submitTask "t1" "now" badReq (engineInit 4) =
      (Except.error "Please select an AI Model.", engineInit 4) :=
  ⟨submitTask_validation_rejects.1 badReq (Or.inr (Or.inl rfl)),
    submitTask_validation_rejects.2 "t1" "now" badReq (engineInit 4)
      "Please select an AI Model." rfl⟩

/-- C4: whenever validation succeeds on one of the three known stages, the
normalized `input_images` is exactly the documented per-stage role order:
the unique image of each role in sequence, regardless of supplied order. -/
theorem validateRequest_normalized_order :
    ∀ (req req' : GenerateRequest), validateRequest req = (none, req') →
      (req.stage = HAIRSTYLE_EXTRACTION →
        ∃ r m, catFilter req.input_images "hair-ref" = [r] ∧
          catFilter req.input_images "hair-mannequin" = [m] ∧
          req'.input_images = [r, m]) ∧
      (req.stage = DOLL_ASSEMBLY →
        ∃ h b c, catFilter req.input_images "asm-hair" = [h] ∧
          catFilter req.input_images "asm-body" = [b] ∧
          catFilter req.input_images "asm-cloth" = [c] ∧
          req'.input_images = [h, b, c]) ∧
      (req.stage = DOLL_REPLACEMENT →
        ∃ r p, catFilter req.input_images "rep-ref" = [r] ∧
          catFilter req.input_images "rep-prod" = [p] ∧
          req'.input_images = [r, p]) := by
  intro req req' hval
  unfold validateRequest at hval
  split_ifs at hval with hk hm hs ha hst1 hc1 hst2 hc2 hst3 hc3 <;>
    simp only [Prod.mk.injEq] at hval <;>
    try exact absurd hval.1 (Option.some_ne_none _)
  · -- hairstyle_extraction, composition ok
    push_neg at hc1
    obtain ⟨r, hr⟩ := List.length_eq_one.mp hc1.1
    obtain ⟨m, hmm⟩ := List.length_eq_one.mp hc1.2
    refine ⟨fun _ => ⟨r, m, hr, hmm, ?_⟩, fun habs => ?_, fun habs => ?_⟩
    · rw [← hval.2]
      simp [hr, hmm]
    · rw [hst1] at habs
      exact absurd habs (by decide)
    · rw [hst1] at habs
      exact absurd habs (by decide)
  · -- doll_assembly, composition ok
    push_neg at hc2
    obtain ⟨b, hb⟩ := List.length_eq_one.mp hc2.2.1
    obtain ⟨c, hc⟩ := List.length_eq_one.mp hc2.2.2
    obtain ⟨h, hh⟩ := List.length_eq_one.mp hc2.1
    refine ⟨fun habs => ?_, fun _ => ⟨h, b, c, hh, hb, hc, ?_⟩,
      fun habs => ?_⟩
    · rw [hst2] at habs
      exact absurd habs (by decide)
    · rw [← hval.2]
      simp [hh, hb, hc]
    · rw [hst2] at habs
      exact absurd habs (by decide)
  · -- doll_replacement, composition ok
    push_neg at hc3
    obtain ⟨r, hr⟩ := List.length_eq_one.mp hc3.1
    obtain ⟨p, hp⟩ := List.length_eq_one.mp hc3.2
    refine ⟨fun habs => ?_, fun habs => ?_, fun _ => ⟨r, p, hr, hp, ?_⟩⟩
    · rw [hst3] at habs
      exact absurd habs (by decide)
    · rw [hst3] at habs
      exact absurd habs (by decide)
    · rw [← hval.2]
      simp [hr, hp]
  · -- unknown stage: all three implications are vacuous
    exact ⟨fun habs => absurd habs hst1, fun habs => absurd habs hst2,
      fun habs => absurd habs hst3⟩

/-- A valid hairstyle_extraction request supplied in reversed role order. -/
def reqHS : GenerateRequest :=
  { stage := HAIRSTYLE_EXTRACTION, model := "nano-banana", size := "1K",
    aspect_ratio := "Auto",
    input_images := [mkImg "man" "hair-mannequin", mkImg "ref" "hair-ref"],
    settings := sampleSettings }

/-- A concrete instance of `validateRequest_normalized_order`: the reversed
hairstyle submission is re-sorted to [reference, mannequin]. -/
theorem validateRequest_normalized_order_witness :
    ∃ r m, catFilter reqHS.input_images "hair-ref" = [r] ∧
      catFilter reqHS.input_images "hair-mannequin" = [m] ∧
      ((validateRequest reqHS).2).input_images = [r, m] :=
  (validateRequest_normalized_order reqHS (validateRequest reqHS).2 rfl).1 rfl

/-- `validateRequest` never changes the stage of the request it returns. -/
theorem validateRequest_stage_eq (req : GenerateRequest) :
    ((validateRequest req).2).stage = req.stage := by
  unfold validateRequest
  split_ifs <;> rfl

/-- C10: a successfully submitted task stores no stage field; its `type` is
the stage string with underscores replaced by spaces and upper-cased (the
`TaskItem` record of the embedding, like the source's, has no stage field, so
`type` is the only stage-derived information on the durable record). -/
theorem submitTask_type_field :
    ∀ (tid st : String) (req : GenerateRequest) (s : EngineState)
      (t : TaskItem) (r : EngineState),
      submitTask tid st req s = (Except.ok t, r) →
      t.type = typeOfStage req.stage ∧
      typeOfStage DOLL_ASSEMBLY = "DOLL ASSEMBLY" := by
  intro tid st req s t r hsub
  refine ⟨?_, by decide⟩
  unfold submitTask at hsub
  cases hv : validateRequest req with
  | mk o q =>
    cases o with
    | some e => rw [hv] at hsub; exact absurd (congrArg Prod.fst hsub) (by simp)
    | none =>
      rw [hv] at hsub
      have ht : t = mkTask tid st q := by
        have := congrArg Prod.fst hsub
        simpa using this.symm
      have hq : q.stage = req.stage := by
        have := validateRequest_stage_eq req
        rw [hv] at this
        exact this
      rw [ht]
      simp [mkTask, hq]

/-- A concrete instance of `submitTask_type_field`. -/
theorem submitTask_type_field_witness :
    (mkTask "t1" "now" bogusReq).type = typeOfStage bogusReq.stage ∧
    typeOfStage DOLL_ASSEMBLY = "DOLL ASSEMBLY" := by
  have h := submitTask_type_field "t1" "now" bogusReq (engineInit 4)
    (mkTask "t1" "now" bogusReq)
    (processQueue { (engineInit 4) with
      tasks := mkTask "t1" "now" bogusReq :: (engineInit 4).tasks,
      queue := (engineInit 4).queue ++ [("t1", bogusReq)] })
    (by rfl)
  exact h

/-! ## Scheduler claims -/

/-- `processQueue` never changes the configured limit. -/
theorem processQueue_max (s : EngineState) :
    (processQueue s).maxConcurrency = s.maxConcurrency := by
  unfold processQueue
  split
  · rfl
  · split <;> rfl

/-- `processQueue` preserves `running.length ≤ maxConcurrency`. -/
theorem processQueue_le (s : EngineState)
    (h : s.running.length ≤ s.maxConcurrency) :
    (processQueue s).running.length ≤ (processQueue s).maxConcurrency := by
  unfold processQueue
  split
  · exact h
  · split
    · exact h
    · rename_i hc
      simp only [List.length_append, List.length_cons, List.length_nil]
      omega

/-- The engine state after `updateConcurrency 3` at a reachable state with one
running task, two queued tasks and old limit 1 (built by genuine submissions
from a fresh engine with limit 1). -/
def sAfterRaise : EngineState :=
  stepEvent
    (stepEvent
      (stepEvent
        (stepEvent (engineInit 1) (Event.submit "t1" "now" bogusReq))
        (Event.submit "t2" "now" bogusReq))
      (Event.submit "t3" "now" bogusReq))
    (Event.setLimit 3)

/-- C2, counterexample: the claim says admission runs "for as long as the
queue is non-empty and the counter is below the limit", so after any
admission trigger that condition must be false; and a limit raise must start
"as many additional queued tasks as the new limit allows".  Raising the limit
from 1 to 3 with one task running and two queued starts only one task: the
queue is still non-empty with the counter strictly below the limit, and the
running count is 2, not the 3 the claim predicts. -/
theorem updateConcurrency_single_admission_counterexample :
    sAfterRaise.queue ≠ [] ∧
    sAfterRaise.running.length < sAfterRaise.maxConcurrency ∧
    sAfterRaise.running.length = 2 := by decide

/-- C2, amended: each admission trigger dequeues and starts at most one task;
the head of the queue is started exactly when the queue is non-empty and the
counter is strictly below the (new) limit, so raising the limit starts at
most one additional queued task immediately. -/
theorem admission_single_step :
    ∀ (s : EngineState) (n : Nat),
      (processQueue s).running.length ≤ s.running.length + 1 ∧
      (updateConcurrency n s).running.length ≤ s.running.length + 1 ∧
      (s.queue = [] → updateConcurrency n s = { s with maxConcurrency := n }) ∧
      (¬ s.running.length < n →
        updateConcurrency n s = { s with maxConcurrency := n }) ∧
      (∀ tid req rest, s.queue = (tid, req) :: rest →
        s.running.length < n →
        updateConcurrency n s =
          { s with
            maxConcurrency := n
            queue := rest
            running := s.running ++ [tid] }) := by
  intro s n
  have hone : ∀ u : EngineState,
      (processQueue u).running.length ≤ u.running.length + 1 := by
    intro u
    unfold processQueue
    split
    · omega
    · split
      · omega
      · simp
  refine ⟨hone s, ?_, ?_, ?_, ?_⟩
  · simpa [updateConcurrency] using
      hone { s with maxConcurrency := n }
  · intro hq
    simp [updateConcurrency, processQueue, hq]
  · intro hlt
    simp only [updateConcurrency, processQueue]
    cases hq : s.queue with
    | nil => rfl
    | cons hd t =>
      cases hd with
      | mk tid req => simp [Nat.ge_of_not_lt hlt]
  · intro tid req rest hq hlt
    simp [updateConcurrency, processQueue, hq, Nat.not_le_of_lt hlt]

/-- A concrete instance of `admission_single_step`: with an empty queue a
limit change only stores the new limit, and with a queued task and a free
slot exactly the head task is started. -/
theorem admission_single_step_witness :
    updateConcurrency 5 (engineInit 2) =
      { engineInit 2 with maxConcurrency := 5 } ∧
    updateConcurrency 2
        { engineInit 1 with queue := [("t9", bogusReq)], running := ["t1"] } =
      { engineInit 1 with
        maxConcurrency := 2
        queue := []
        running := ["t1", "t9"] } := by
  constructor
  · exact (admission_single_step (engineInit 2) 5).2.2.1 rfl
  · have h := (admission_single_step
      { engineInit 1 with queue := [("t9", bogusReq)], running := ["t1"] }
      2).2.2.2.2 "t9" bogusReq [] rfl (by decide)
    simpa using h

/-- The engine state after two genuine submissions at limit 2 (both running)
followed by lowering the limit to 1. -/
def sAfterLower : EngineState :=
  stepEvent
    (stepEvent
      (stepEvent (engineInit 2) (Event.submit "t1" "now" bogusReq))
      (Event.submit "t2" "now" bogusReq))
    (Event.setLimit 1)

/-- C6, counterexample: the claim says the number of concurrently executing
tasks never exceeds the configured limit at any instant; lowering the limit
below the current in-flight count falsifies it (running tasks are never
preempted). -/
theorem concurrency_invariant_counterexample :
    sAfterLower.maxConcurrency < sAfterLower.running.length := by decide

/-- C6, amended: a task starts only when the counter is strictly below the
current limit (a strict increase of `running` by `processQueue` implies the
counter was below the limit), and every engine event preserves
`running.length ≤ maxConcurrency` provided a limit change does not lower the
limit below the current in-flight count — so with a fixed (or never
under-lowered) limit the in-flight count never exceeds it, and the counter
decreases only through task completion events. -/
theorem concurrency_invariant_preserved :
    (∀ (s : EngineState) (e : Event),
      s.running.length ≤ s.maxConcurrency →
      (∀ n, e = Event.setLimit n → s.running.length ≤ n) →
      (stepEvent s e).running.length ≤ (stepEvent s e).maxConcurrency) ∧
    (∀ s : EngineState, processQueue s ≠ s →
      s.running.length < s.maxConcurrency ∧
      (processQueue s).running.length = s.running.length + 1) := by
  constructor
  · intro s e hinv hlim
    cases e with
    | submit tid st req =>
      simp only [stepEvent, submitTask]
      cases hv : validateRequest req with
      | mk o q =>
        cases o with
        | some msg => exact hinv
        | none =>
          exact processQueue_le _ (by simpa using hinv)
    | complete tid =>
      simp only [stepEvent, completeTask]
      refine processQueue_le _ ?_
      simpa using
        le_trans ((s.running.erase_sublist tid).length_le) hinv
    | setLimit n =>
      simp only [stepEvent, updateConcurrency]
      exact processQueue_le _ (by simpa using hlim n rfl)
  · intro s hne
    cases hq : s.queue with
    | nil =>
      exact absurd (by unfold processQueue; rw [hq]) hne
    | cons hd t =>
      cases hd with
      | mk tid req =>
        by_cases hc : s.running.length ≥ s.maxConcurrency
        · exact absurd (by unfold processQueue; rw [hq]; simp [hc]) hne
        · refine ⟨Nat.lt_of_not_le hc, ?_⟩
          unfold processQueue
          rw [hq]
          simp [hc]

/-- A concrete instance of `concurrency_invariant_preserved`: submitting to a
fresh engine keeps the in-flight count within the limit, and the admission
that starts a queued task had a free slot. -/
theorem concurrency_invariant_preserved_witness :
    (stepEvent (engineInit 2) (Event.submit "t1" "now" bogusReq)).running.length
      ≤ (stepEvent (engineInit 2)
        (Event.submit "t1" "now" bogusReq)).maxConcurrency ∧
    ({ engineInit 1 with queue := [("t9", bogusReq)] } :
        EngineState).running.length <
      ({ engineInit 1 with queue := [("t9", bogusReq)] } :
        EngineState).maxConcurrency := by
  constructor
  · exact concurrency_invariant_preserved.1 (engineInit 2)
      (Event.submit "t1" "now" bogusReq) (by decide)
      (fun n h => by cases h)
  · exact (concurrency_invariant_preserved.2
      { engineInit 1 with queue := [("t9", bogusReq)] } (by decide)).1

/-! ## Remote transfer client (C7) -/

/-- Shape of every event an image upload can emit: a log line, a put on one
of the three attempts, or the fixed 3000 ms inter-attempt delay. -/
def isUploadEv : Ev → Prop
  | Ev.log _ => True
  | Ev.ossPut _ j => j < 3
  | Ev.delay ms => ms = 3000
  | _ => False

theorem uploadOne_events (s : AppSettings) (img : ImageItem)
    (f : Nat → Bool) : ∀ ev ∈ (uploadOne s img f).2, isUploadEv ev := by
  unfold uploadOne
  split_ifs <;>
    simp [uploadAttEvs, uploadFailLog, List.forall_mem_cons, isUploadEv]

theorem uploadGo_events (s : AppSettings) (ok : Nat → Nat → Bool) :
    ∀ (imgs : List ImageItem) (idx : Nat),
      ∀ ev ∈ (uploadGo s ok imgs idx).2, isUploadEv ev := by
  intro imgs
  induction imgs with
  | nil => intro idx ev hev; simp [uploadGo] at hev
  | cons img rest ih =>
    intro idx ev hev
    unfold uploadGo at hev
    cases h1 : uploadOne s img (ok idx) with
    | mk r evs =>
      rw [h1] at hev
      cases r with
      | error e =>
        exact uploadOne_events s img (ok idx) ev (by rw [h1]; exact hev)
      | ok link =>
        cases h2 : uploadGo s ok rest (idx + 1) with
        | mk r' evs' =>
          rw [h2] at hev
          cases r' with
          | error e =>
            rcases List.mem_append.mp hev with h | h
            · exact uploadOne_events s img (ok idx) ev (by rw [h1]; exact h)
            · exact ih (idx + 1) ev (by rw [h2]; exact h)
          | ok links =>
            rcases List.mem_append.mp hev with h | h
            · exact uploadOne_events s img (ok idx) ev (by rw [h1]; exact h)
            · exact ih (idx + 1) ev (by rw [h2]; exact h)

theorem uploadImagesToOSS_events (imgs : List ImageItem) (s : AppSettings)
    (ok : Nat → Nat → Bool) :
    ∀ ev ∈ (uploadImagesToOSS imgs s ok).2, isUploadEv ev := by
  intro ev hev
  unfold uploadImagesToOSS at hev
  split_ifs at hev with h
  · simp at hev
  · exact uploadGo_events s ok imgs 0 ev hev

/-- The link returned by a successful single-image upload. -/
theorem uploadOne_ok_link (s : AppSettings) (img : ImageItem)
    (f : Nat → Bool) (l : String) (h : (uploadOne s img f).1 = Except.ok l) :
    l = ossLink s img := by
  unfold uploadOne at h
  split_ifs at h <;> simp_all

theorem uploadGo_ok_links (s : AppSettings) (ok : Nat → Nat → Bool) :
    ∀ (imgs : List ImageItem) (idx : Nat) (links : List String),
      (uploadGo s ok imgs idx).1 = Except.ok links →
      links = imgs.map (ossLink s) := by
  intro imgs
  induction imgs with
  | nil =>
    intro idx links h
    simp [uploadGo] at h
    simp [h.symm]
  | cons img rest ih =>
    intro idx links h
    unfold uploadGo at h
    cases h1 : uploadOne s img (ok idx) with
    | mk r evs =>
      rw [h1] at h
      cases r with
      | error e => simp at h
      | ok link =>
        cases h2 : uploadGo s ok rest (idx + 1) with
        | mk r' evs' =>
          rw [h2] at h
          cases r' with
          | error e => simp at h
          | ok links' =>
            simp at h
            rw [← h]
            have hl := uploadOne_ok_link s img (ok idx) link (by rw [h1])
            have hr := ih (idx + 1) links' (by rw [h2])
            simp [hl, hr]

/-- C7: if the object-storage credentials checked by the source are missing,
the upload fails immediately with no event at all (no network I/O); each
image is attempted at most 3 times; exhausting the three attempts produces an
error naming that file, with an attempt log line before each put and the
fixed 3000 ms delay between attempts; and on success the returned links
correspond index-for-index with the input image order. -/
theorem uploadImagesToOSS_spec :
    (∀ (imgs : List ImageItem) (s : AppSettings) (ok : Nat → Nat → Bool),
      s.ossAccessKeyId = "" ∨ s.ossBucketName = "" →
      uploadImagesToOSS imgs s ok =
        (Except.error "OSS Configuration incomplete", [])) ∧
    (∀ (imgs : List ImageItem) (s : AppSettings) (ok : Nat → Nat → Bool)
        (ev : Ev), ev ∈ (uploadImagesToOSS imgs s ok).2 →
      ∀ k j, ev = Ev.ossPut k j → j < 3) ∧
    (∀ (s : AppSettings) (img : ImageItem) (f : Nat → Bool),
      f 0 = false → f 1 = false → f 2 = false →
      uploadOne s img f =
        (Except.error ("OSS Upload Failed for " ++ img.name),
          uploadAttEvs s img 0 ++ [uploadFailLog 0, Ev.delay 3000]
            ++ uploadAttEvs s img 1 ++ [uploadFailLog 1, Ev.delay 3000]
            ++ uploadAttEvs s img 2 ++ [uploadFailLog 2])) ∧
    (∀ (imgs : List ImageItem) (s : AppSettings) (ok : Nat → Nat → Bool)
        (links : List String),
      (uploadImagesToOSS imgs s ok).1 = Except.ok links →
      links = imgs.map (ossLink s)) := by
  refine ⟨?_, ?_, ?_, ?_⟩
  · intro imgs s ok h
    simp [uploadImagesToOSS, h]
  · intro imgs s ok ev hev k j hput
    have := uploadImagesToOSS_events imgs s ok ev hev
    rw [hput] at this
    exact this
  · intro s img f h0 h1 h2
    simp [uploadOne, h0, h1, h2]
  · intro imgs s ok links h
    unfold uploadImagesToOSS at h
    split_ifs at h with hcred
    · exact uploadGo_ok_links s ok imgs 0 links h

/-- Settings with the object-storage key id missing. -/
def noOssSettings : AppSettings := { sampleSettings with ossAccessKeyId := "" }

/-- A concrete instance of `uploadImagesToOSS_spec`: missing credentials fail
with no I/O; an image failing all three attempts aborts with an error naming
it; a succeeding upload returns the links in input order. -/
theorem uploadImagesToOSS_spec_witness :
    uploadImagesToOSS [mkImg "a" "hair-ref"] noOssSettings (fun _ _ => true) =
      (Except.error "OSS Configuration incomplete", []) ∧
    (uploadOne sampleSettings (mkImg "a" "hair-ref") (fun _ => false)).1 =
      Except.error ("OSS Upload Failed for " ++ (mkImg "a" "hair-ref").name) ∧
    (∃ links,
      (uploadImagesToOSS [mkImg "a" "hair-ref", mkImg "b" "hair-mannequin"]
          sampleSettings (fun _ _ => true)).1 = Except.ok links ∧
      links = [mkImg "a" "hair-ref", mkImg "b" "hair-mannequin"].map
        (ossLink sampleSettings)) := by
  refine ⟨?_, ?_, ?_⟩
  · exact uploadImagesToOSS_spec.1 [mkImg "a" "hair-ref"] noOssSettings
      (fun _ _ => true) (Or.inl rfl)
  · rw [uploadImagesToOSS_spec.2.2.1 sampleSettings (mkImg "a" "hair-ref")
      (fun _ => false) rfl rfl rfl]
  · exact ⟨[ossLink sampleSettings (mkImg "a" "hair-ref"),
      ossLink sampleSettings (mkImg "b" "hair-mannequin")], rfl,
      uploadImagesToOSS_spec.2.2.2
        [mkImg "a" "hair-ref", mkImg "b" "hair-mannequin"] sampleSettings
        (fun _ _ => true)
        [ossLink sampleSettings (mkImg "a" "hair-ref"),
          ossLink sampleSettings (mkImg "b" "hair-mannequin")] rfl⟩

/-! ## Remote generation client (C8) -/

/-- Shape of every event a submission can emit: a log line, a post on one of
the three attempts, or the fixed 10000 ms inter-attempt delay. -/
def isSubmitEv : Ev → Prop
  | Ev.log _ => True
  | Ev.apiPost i => i < 3
  | Ev.delay ms => ms = 10000
  | _ => False

theorem submitAttemptEvs_events (i : Nat) (r : Option (Nat × String))
    (h : i < 3) : ∀ ev ∈ submitAttemptEvs i r, isSubmitEv ev := by
  cases r with
  | none => simp [submitAttemptEvs, isSubmitEv, h]
  | some p =>
    cases p with
    | mk status tid =>
      simp [submitAttemptEvs, isSubmitEv, h, List.forall_mem_cons]

theorem callGeekAI_events (o : Nat → Option (Nat × String)) :
    ∀ ev ∈ (callGeekAI o).2, isSubmitEv ev := by
  unfold callGeekAI
  cases h0 : submitAttempt (o 0) with
  | some tid => exact submitAttemptEvs_events 0 (o 0) (by omega)
  | none =>
    cases h1 : submitAttempt (o 1) with
    | some tid =>
      simp only [List.forall_mem_append]
      repeat' apply And.intro
      all_goals
        first
          | exact submitAttemptEvs_events 0 (o 0) (by omega)
          | exact submitAttemptEvs_events 1 (o 1) (by omega)
          | exact submitAttemptEvs_events 2 (o 2) (by omega)
          | simp [submitFailLog, isSubmitEv, List.forall_mem_cons]
    | none =>
      cases h2 : submitAttempt (o 2) with
      | some tid =>
        simp only [List.forall_mem_append]
        repeat' apply And.intro
        all_goals
          first
            | exact submitAttemptEvs_events 0 (o 0) (by omega)
            | exact submitAttemptEvs_events 1 (o 1) (by omega)
            | exact submitAttemptEvs_events 2 (o 2) (by omega)
            | simp [submitFailLog, isSubmitEv, List.forall_mem_cons]
      | none =>
        simp only [List.forall_mem_append]
        repeat' apply And.intro
        all_goals
          first
            | exact submitAttemptEvs_events 0 (o 0) (by omega)
            | exact submitAttemptEvs_events 1 (o 1) (by omega)
            | exact submitAttemptEvs_events 2 (o 2) (by omega)
            | simp [submitFailLog, isSubmitEv, List.forall_mem_cons]

theorem linkLogs_no_pollQuery :
    ∀ (i : Nat) (ls : List String) (n : Nat),
      Ev.pollQuery n ∉ linkLogs i ls := by
  intro i ls
  induction ls generalizing i with
  | nil => intro n; simp [linkLogs]
  | cons l rest ih =>
    intro n
    simp only [linkLogs, List.mem_cons]
    rintro (h | h)
    · cases h
    · exact ih (i + 1) n h

/-- C8: the submit client posts at most 3 attempts; a delivered response
lacking a remote task id counts as a failed attempt even though transport
succeeded; three failed attempts fail the task with `GeekAI Request Failed`,
with the fixed 10000 ms delay after a failed attempt; and when submission
succeeds in the pipeline, the remote id is persisted (`dbUpdateRemoteId`)
strictly before any poll query is issued. -/
theorem callGeekAI_spec :
    (∀ (o : Nat → Option (Nat × String)) (ev : Ev),
      ev ∈ (callGeekAI o).2 → ∀ i, ev = Ev.apiPost i → i < 3) ∧
    (∀ st : Nat, submitAttempt (some (st, "")) = none) ∧
    (∀ o : Nat → Option (Nat × String),
      submitAttempt (o 0) = none → submitAttempt (o 1) = none →
      submitAttempt (o 2) = none →
      (callGeekAI o).1 = Except.error "GeekAI Request Failed") ∧
    (∀ o : Nat → Option (Nat × String),
      submitAttempt (o 0) = none → Ev.delay 10000 ∈ (callGeekAI o).2) ∧
    (∀ (req : GenerateRequest) (memLine : String) (ossOk : Nat → Nat → Bool)
        (subOracle : Nat → Option (Nat × String))
        (pollOracle : Nat → PollResp) (pollFuel : Nat) (dlOk : Nat → Bool)
        (filePath : String) (dlFuel : Nat) (endTimeStr durationStr : String)
        (links : List String) (uevs : List Ev) (uuid : String)
        (gevs : List Ev),
      uploadImagesToOSS req.input_images req.settings ossOk =
        (Except.ok links, uevs) →
      callGeekAI subOracle = (Except.ok uuid, gevs) →
      ∃ pre suf,
        executeTask req memLine ossOk subOracle pollOracle pollFuel dlOk
            filePath dlFuel endTimeStr durationStr
          = pre ++ Ev.dbUpdateRemoteId uuid :: suf ∧
        ∀ n, Ev.pollQuery n ∉ pre) := by
  refine ⟨?_, ?_, ?_, ?_, ?_⟩
  · intro o ev hev i hpost
    have := callGeekAI_events o ev hev
    rw [hpost] at this
    exact this
  · intro st
    simp [submitAttempt]
  · intro o h0 h1 h2
    simp [callGeekAI, h0, h1, h2]
  · intro o h0
    unfold callGeekAI
    rw [h0]
    cases h1 : submitAttempt (o 1) with
    | some tid => simp
    | none =>
      cases h2 : submitAttempt (o 2) with
      | some tid => simp
      | none => simp
  · intro req memLine ossOk subOracle pollOracle pollFuel dlOk filePath
      dlFuel endTimeStr durationStr links uevs uuid gevs hup hsub
    have hu : ∀ n : Nat, Ev.pollQuery n ∉ uevs := by
      intro n hmem
      have := uploadImagesToOSS_events req.input_images req.settings ossOk
        (Ev.pollQuery n) (by rw [hup]; exact hmem)
      simp [isUploadEv] at this
    have hg : ∀ n : Nat, Ev.pollQuery n ∉ gevs := by
      intro n hmem
      have := callGeekAI_events subOracle (Ev.pollQuery n)
        (by rw [hsub]; exact hmem)
      simp [isSubmitEv] at this
    have hpre : ∀ n : Nat, Ev.pollQuery n ∉
        ([Ev.dbSetProcessing, Ev.log memLine,
          Ev.log ("Stage: " ++ req.stage ++ ", Model: " ++ req.model
            ++ ", Size: " ++ req.size ++ ", Ratio: " ++ req.aspect_ratio),
          Ev.log ("Starting upload of " ++ toString req.input_images.length
            ++ " images to Aliyun OSS...")]
        ++ uevs ++ [Ev.log "OSS upload completed successfully."]
        ++ linkLogs 0 links
        ++ [Ev.log "Constructing API payload...",
          Ev.log "--- API REQUEST PAYLOAD ---", Ev.logPayload,
          Ev.log "---------------------------",
          Ev.log "Submitting task to GeekAI API..."]
        ++ gevs) := by
      intro n
      simp [List.mem_append, hu n, hg n, linkLogs_no_pollQuery 0 links n]
    unfold executeTask
    rw [hup, hsub]
    cases hpoll : pollGeekAIResult pollOracle pollFuel with
    | mk popt pevs =>
      cases popt with
      | none =>
        exact ⟨_, Ev.log ("Task submitted successfully. Remote ID: " ++ uuid)
          :: Ev.log "Polling for results..." :: pevs,
          by simp [List.append_assoc], hpre⟩
      | some r =>
        cases r with
        | error e =>
          exact ⟨_,
            Ev.log ("Task submitted successfully. Remote ID: " ++ uuid)
              :: Ev.log "Polling for results..."
              :: (pevs ++ failTail endTimeStr e),
            by simp [List.append_assoc], hpre⟩
        | ok url =>
          cases hdl : downloadImage dlOk filePath dlFuel with
          | mk dopt devs =>
            cases dopt with
            | none =>
              exact ⟨_,
                Ev.log ("Task submitted successfully. Remote ID: " ++ uuid)
                  :: Ev.log "Polling for results..."
                  :: (pevs ++ [Ev.log ("Image generation succeeded. "
                    ++ "Result URL: " ++ url),
                    Ev.log "Downloading result..."] ++ devs),
                by simp [List.append_assoc], hpre⟩
            | some lp =>
              exact ⟨_,
                Ev.log ("Task submitted successfully. Remote ID: " ++ uuid)
                  :: Ev.log "Polling for results..."
                  :: (pevs ++ [Ev.log ("Image generation succeeded. "
                    ++ "Result URL: " ++ url),
                    Ev.log "Downloading result..."] ++ devs
                    ++ [Ev.log ("Image saved to " ++ lp),
                      Ev.dbComplete endTimeStr durationStr lp,
                      Ev.log ("Task completed in " ++ durationStr ++ ".")]),
                by simp [List.append_assoc], hpre⟩

/-- A concrete instance of `callGeekAI_spec`: three failed posts fail the
submission; an id-less 200 response counts as failure; with a successful
upload and submission the remote-id persist event precedes every poll
query. -/
theorem callGeekAI_spec_witness :
    (callGeekAI (fun _ => none)).1 = Except.error "GeekAI Request Failed" ∧
    submitAttempt (some (200, "")) = none ∧
    (∃ pre suf,
      executeTask bogusReq "mem" (fun _ _ => true)
          (fun _ => some (200, "id1")) (fun _ => PollResp.netErr) 0
          (fun _ => true) "/out/f.jpg" 1 "et" "1.0s"
        = pre ++ Ev.dbUpdateRemoteId "id1" :: suf ∧
      ∀ n, Ev.pollQuery n ∉ pre) := by
  refine ⟨?_, ?_, ?_⟩
  · exact callGeekAI_spec.2.2.1 (fun _ => none) rfl rfl rfl
  · exact callGeekAI_spec.2.1 200
  · exact callGeekAI_spec.2.2.2.2 bogusReq "mem" (fun _ _ => true)
      (fun _ => some (200, "id1")) (fun _ => PollResp.netErr) 0
      (fun _ => true) "/out/f.jpg" 1 "et" "1.0s"
      [ossLink sampleSettings (mkImg "a" "hair-ref")]
      (uploadAttEvs sampleSettings (mkImg "a" "hair-ref") 0) "id1"
      (submitAttemptEvs 0 (some (200, "id1"))) rfl rfl

end DollWorkflow
